import Mathlib

/-!
# Verification of the xcode-index-mcp service bridge

A shallow embedding of `src/xcode_index_mcp/server.py` (the service bridge:
`SwiftService` and the tool entry points) together with theorems settling the
frozen claims about it.

Conventions of the embedding:

* Python runtime values that flow through the dispatcher are modelled by
  `PyVal` (None / bool / int / str / list / dict).  Python dictionaries are
  association lists with unique keys; `d[k]` and `k in d` are `List.lookup`.
* The `mcp` library's `McpError(ErrorData(code, message))` is modelled by
  `ErrorData`.  Two facts of that library are used: `McpError` subclasses
  `Exception` (so a bare `except Exception` clause catches it), and
  `McpError.__init__` calls `super().__init__(error.message)`, so
  `str(e)` of a caught `McpError` is its `message`.
* Stateful methods of the singleton `SwiftService` become explicit state
  passing over `ServiceState`; interaction with the OS / network (process
  signalling outcomes, connection acceptance, wire behaviour) is supplied by
  explicit oracle arguments, one constructor per outcome the corresponding
  `try/except` structure in the source distinguishes.
* The line-delimited JSON framing (`json.dumps(request).encode() + b'\n'`
  written, `readline()` then `json.loads` read back) is modelled by an
  executable serializer and recursive-descent parser over the JSON fragment
  that request lines inhabit (strings and string-keyed objects), including
  `ensure_ascii` escaping with `\uXXXX` sequences and surrogate pairs.
-/

/-! ## Python values -/

/-- A Python runtime value, as far as the dispatcher inspects one.
Dictionaries are association lists (Python dict keys are unique; lookups read
the first matching key). -/
inductive PyVal where
  | none
  | bool (b : Bool)
  | int (n : Int)
  | str (s : String)
  | list (xs : List PyVal)
  | dict (kvs : List (String × PyVal))

/-- Python truthiness (`bool(v)`): `None` is falsy, numbers are falsy at zero,
strings/lists/dicts are falsy when empty. -/
def PyVal.truthy : PyVal → Bool
  | .none => false
  | .bool b => b
  | .int n => n != 0
  | .str s => s != ""
  | .list xs => !xs.isEmpty
  | .dict kvs => !kvs.isEmpty

/-- Python `repr` of a `str`: quote with `'` unless the string contains `'`
but no `"`; escape the backslash, the chosen quote, and the common control
characters.  (Other control characters get `\xXX`; classification of
non-ASCII printability is beyond the scope of this model and such characters
are left literal.) -/
def pyReprStrQuote (q : Char) (s : String) : String :=
  let esc : Char → String := fun c =>
    if c = '\\' then "\\\\"
    else if c = q then "\\" ++ String.mk [q]
    else if c = '\n' then "\\n"
    else if c = '\r' then "\\r"
    else if c = '\t' then "\\t"
    else if c.toNat < 0x20 || c.toNat = 0x7f then
      "\\x" ++ String.mk [Nat.digitChar (c.toNat / 16), Nat.digitChar (c.toNat % 16)]
    else String.mk [c]
  String.mk [q] ++ String.join (s.toList.map esc) ++ String.mk [q]

/-- Python `repr` of a `str`, including the preference for single quotes. -/
def pyReprStr (s : String) : String :=
  if s.toList.contains '\'' && !(s.toList.contains '"') then pyReprStrQuote '"' s
  else pyReprStrQuote '\'' s

mutual

/-- Python `repr(v)` for the modelled values (`repr` of containers recurses
into `repr` of the elements). -/
def pyRepr : PyVal → String
  | .none => "None"
  | .bool b => if b then "True" else "False"
  | .int n => toString n
  | .str s => pyReprStr s
  | .list xs => "[" ++ pyReprList xs ++ "]"
  | .dict kvs => "\x7b" ++ pyReprDict kvs ++ "\x7d"

/-- Comma-joined `repr`s of list elements. -/
def pyReprList : List PyVal → String
  | [] => ""
  | [x] => pyRepr x
  | x :: y :: rest => pyRepr x ++ ", " ++ pyReprList (y :: rest)

/-- Comma-joined `repr(k): repr(v)` pairs of dict items. -/
def pyReprDict : List (String × PyVal) → String
  | [] => ""
  | [(k, v)] => pyReprStr k ++ ": " ++ pyRepr v
  | (k, v) :: p :: rest => pyReprStr k ++ ": " ++ pyRepr v ++ ", " ++ pyReprDict (p :: rest)

end

/-- Python `str(v)`: the value itself for a `str`, otherwise `repr`-like
(precisely: `str(None) = "None"`, `str(True) = "True"`, decimal for ints,
`repr` for containers). -/
def pyStr : PyVal → String
  | .str s => s
  | v => pyRepr v

/-! ## The mcp error envelope -/

/-- `mcp.types.ErrorData`: the payload of `McpError`, the single uniform error
envelope every failure is surfaced through. -/
structure ErrorData where
  code : Int
  message : String
deriving DecidableEq

/-- `mcp.types.INTERNAL_ERROR` (JSON-RPC). -/
def INTERNAL_ERROR : Int := -32603

/-- `mcp.types.INVALID_PARAMS` (JSON-RPC). -/
def INVALID_PARAMS : Int := -32602

/-! ## The dispatcher's response interpretation (`SwiftService.send_request`)

`send_request` (server.py lines 167-220) decodes one response line and then
runs the logic of lines 184-203 inside a `try:` whose handlers are
`except json.JSONDecodeError` and `except Exception as e:` — and `McpError`
itself subclasses `Exception`, so the `McpError`s raised at lines 186 and 196
are caught at line 213 and re-raised as
`McpError(INTERNAL_ERROR, f"Swift service error: {str(e)}")`. -/

/-- Lines 184-203 of `send_request`, operating on the decoded response object:
a truthy top-level `error` raises `McpError(INTERNAL_ERROR, str(error))`; else
`response["result"]` is read (a missing key is a `KeyError`, modelled as the
re-wrapped message the line-213 handler produces for it, `str(KeyError('result'))
= "'result'"`); a `result` that is a dict containing an `error` key raises
`McpError(INVALID_PARAMS, str(result["error"]))`; otherwise `result` is
returned. -/
def handleDecodedResponse (response : List (String × PyVal)) : Except ErrorData PyVal :=
  let errVal := response.lookup "error"
  if errVal.isSome && (errVal.getD .none).truthy then
    .error ⟨INTERNAL_ERROR, pyStr (errVal.getD .none)⟩
  else
    match response.lookup "result" with
    | Option.none => .error ⟨INTERNAL_ERROR, "'result'"⟩
    | some result =>
      match result with
      | .dict kvs =>
        if (kvs.lookup "error").isSome then
          .error ⟨INVALID_PARAMS, pyStr ((kvs.lookup "error").getD .none)⟩
        else .ok result
      | r => .ok r

/-- The error a raise inside `send_request`'s `try:` is converted to by the
`except Exception as e:` clause at lines 213-220 (this clause also catches the
`McpError`s the method itself raised; `str` of an `McpError` is its message). -/
def wrapSwiftServiceError (e : ErrorData) : ErrorData :=
  ⟨INTERNAL_ERROR, "Swift service error: " ++ e.message⟩

/-- What `send_request` delivers to its caller for a decoded response:
the lines 184-203 outcome with every raised error re-wrapped by the
`except Exception` clause. -/
def sendRequestResult (response : List (String × PyVal)) : Except ErrorData PyVal :=
  match handleDecodedResponse response with
  | .ok r => .ok r
  | .error e => .error (wrapSwiftServiceError e)

/-! ## Tool-level parameter validation (the pre-dispatch halves of
`symbol_occurrences` and `get_occurrences`)

Both tools validate, build `params`, and call
`swift_service.send_request(method, params)`; their handlers re-raise
`McpError` unchanged (`except McpError: raise`), so a validation error reaches
the caller with its own code.  The functions below model each tool up to the
dispatch boundary: the value is the `(method, params)` pair handed to
`send_request`, the error is the `McpError` raised before any worker call. -/

/-- `valid_roles` of `get_occurrences` (line 297). -/
def valid_roles : List String := ["reference", "definition"]

/-- Lines 285-311: `get_occurrences(usr, roles)` up to the dispatch boundary.
`invalid_roles` is the sublist of `roles` not in the whitelist; if nonempty the
tool raises `McpError(INVALID_PARAMS, f"Invalid roles: {invalid_roles}. Must be
one of: {valid_roles}")` before dispatch, else it dispatches
`{"usr": str(usr), "roles": ",".join(roles)}`. -/
def get_occurrences_request (usr : String) (roles : List String) :
    Except ErrorData (String × List (String × String)) :=
  let invalid_roles := roles.filter (fun role => !valid_roles.contains role)
  if !invalid_roles.isEmpty then
    .error ⟨INVALID_PARAMS,
      "Invalid roles: " ++ pyRepr (.list (invalid_roles.map PyVal.str)) ++
      ". Must be one of: " ++ pyRepr (.list (valid_roles.map PyVal.str))⟩
  else
    .ok ("get_occurrences", [("usr", usr), ("roles", String.intercalate "," roles)])

/-- `isinstance(v, int)` — Python `bool` is a subclass of `int`. -/
def isinstanceInt : PyVal → Bool
  | .int _ => true
  | .bool _ => true
  | _ => false

/-- The integer value of a `PyVal` known to be an `int` (Python `True == 1`,
`False == 0`); `0` elsewhere (never consulted: the source short-circuits
`not isinstance(...) or lineNumber < 1`). -/
def pyIntValue : PyVal → Int
  | .int n => n
  | .bool b => if b then 1 else 0
  | _ => 0

/-- Lines 248-272: `symbol_occurrences(filePath, lineNumber)` up to the
dispatch boundary.  `if not isinstance(lineNumber, int) or lineNumber < 1:`
raises `McpError(INVALID_PARAMS, "lineNumber must be a positive integer")`
before dispatch; otherwise it dispatches
`{"filePath": str(filePath), "lineNumber": str(lineNumber)}`. -/
def symbol_occurrences_request (filePath : String) (lineNumber : PyVal) :
    Except ErrorData (String × List (String × String)) :=
  if !isinstanceInt lineNumber || pyIntValue lineNumber < 1 then
    .error ⟨INVALID_PARAMS, "lineNumber must be a positive integer"⟩
  else
    .ok ("symbol_occurrences", [("filePath", filePath), ("lineNumber", pyStr lineNumber)])

example : get_occurrences_request "u" ["reference", "writer"] =
    .error ⟨INVALID_PARAMS,
      "Invalid roles: ['writer']. Must be one of: ['reference', 'definition']"⟩ := rfl

example : get_occurrences_request "u" ["reference", "definition"] =
    .ok ("get_occurrences", [("usr", "u"), ("roles", "reference,definition")]) := rfl

example : symbol_occurrences_request "/a.swift" (.int 0) =
    .error ⟨INVALID_PARAMS, "lineNumber must be a positive integer"⟩ := rfl

example : symbol_occurrences_request "/a.swift" (.int 45) =
    .ok ("symbol_occurrences", [("filePath", "/a.swift"), ("lineNumber", "45")]) := rfl

/-! ## The service lifecycle (`SwiftService` state and methods)

The singleton's mutable attributes (`self.swift_process`, `self.reader`,
`self.writer`) become a `ServiceState`; fresh pids / connection ids come from
counters carried in the state.  Closing or resetting a stream marks its
`Conn` closed — in Python the attribute still references the (now dead)
`StreamReader`/`StreamWriter` object, so the model keeps the `Conn` in the
`Option` and only flips its flag.  Methods return the raised exception (if
any) together with the state at the moment control left the method. -/

/-- One endpoint of an `asyncio.open_connection` stream pair: which connection
it belongs to, and whether it has been closed (or torn down by a reset). -/
structure Conn where
  id : Nat
  closed : Bool
deriving DecidableEq

/-- The mutable attributes of the `SwiftService` singleton, plus fresh-id
counters standing for the OS's supply of pids and accepted connections. -/
structure ServiceState where
  swift_process : Option Nat
  reader : Option Conn
  writer : Option Conn
  nextPid : Nat
  nextConn : Nat
deriving DecidableEq

/-- An exception escaping a `SwiftService` method: either an `McpError` the
method raised, or an OS/stream error (`ConnectionResetError`, …) it let
propagate. -/
inductive PyExn where
  | mcpError (e : ErrorData)
  | osError (msg : String)
deriving DecidableEq

/-- Outcome of `self.writer.close(); await self.writer.wait_closed()` in
`stop()`: `wait_closed` either returns or raises the exception the transport
was torn down with (e.g. `ConnectionResetError` when the worker died). -/
inductive CloseOutcome where
  | ok
  | raises (msg : String)
deriving DecidableEq

/-- Outcome of the process-group signalling in `stop()`/`_cleanup()`, one
constructor per path its `try/except (ProcessLookupError,
subprocess.TimeoutExpired)` structure distinguishes:
the worker exits on SIGTERM; it is already gone (`ProcessLookupError`, and the
follow-up SIGKILL raises `ProcessLookupError` again, passed); `wait(timeout=2)`
expires and SIGKILL lands; or the wait expires and SIGKILL finds the group
gone. -/
inductive KillOutcome where
  | exits
  | alreadyGone
  | timeoutKilled
  | timeoutGone
deriving DecidableEq

/-- Outcome of `await asyncio.open_connection(host, port)`: accepted, or
refused/timed out with an error message. -/
inductive ConnectOutcome where
  | ok
  | refused (msg : String)
deriving DecidableEq

/-- Lines 132-144 of `stop()` (also the body of `_cleanup`, lines 83-95): if
`self.swift_process` is set, signal its process group with SIGTERM and wait;
`ProcessLookupError` is treated as already-stopped and a timeout falls back to
SIGKILL (whose own `ProcessLookupError` is passed); on every path
`self.swift_process = None` afterwards and nothing is raised. -/
def stopProcessPart (kill : KillOutcome) (s : ServiceState) :
    Except PyExn Unit × ServiceState :=
  match s.swift_process with
  | Option.none => (.ok (), s)
  | some _ =>
    match kill with
    | .exits => (.ok (), { s with swift_process := Option.none })
    | .alreadyGone => (.ok (), { s with swift_process := Option.none })
    | .timeoutKilled => (.ok (), { s with swift_process := Option.none })
    | .timeoutGone => (.ok (), { s with swift_process := Option.none })

/-- Lines 125-144, `SwiftService.stop()`: if `self.writer` is set, close it and
await `wait_closed` — this pair is *not* guarded by any `try`, so a raise here
propagates and the process-signalling part below it never runs.  Then the
process part.  Note that neither `self.reader` nor `self.writer` is ever reset
to `None`. -/
def SwiftService.stop (close : CloseOutcome) (kill : KillOutcome)
    (s : ServiceState) : Except PyExn Unit × ServiceState :=
  match s.writer with
  | some w =>
    let s1 := { s with writer := some { w with closed := true } }
    match close with
    | .raises m => (.error (.osError m), s1)
    | .ok => stopProcessPart kill s1
  | Option.none => stopProcessPart kill s

/-- Lines 146-158, `SwiftService.connect()`: only when `not self.reader or not
self.writer` (a live stream object is always truthy, so: one of them is
`None`) does it call `open_connection`; on refusal it raises
`McpError(INTERNAL_ERROR, f"Failed to connect to Swift service: {str(e)}")`.
Otherwise the method does nothing at all. -/
def SwiftService.connect (co : ConnectOutcome) (s : ServiceState) :
    Except PyExn Unit × ServiceState :=
  if s.reader.isNone || s.writer.isNone then
    match co with
    | .ok =>
      (.ok (), { s with
        reader := some ⟨s.nextConn, false⟩,
        writer := some ⟨s.nextConn, false⟩,
        nextConn := s.nextConn + 1 })
    | .refused m =>
      (.error (.mcpError ⟨INTERNAL_ERROR, "Failed to connect to Swift service: " ++ m⟩), s)
  else (.ok (), s)

/-- Lines 97-123, `SwiftService.start()`: if `self.swift_process is None`,
spawn the worker (modelled as always yielding a fresh pid; a `Popen` failure
would propagate uncaught and is not exercised by any claim), sleep, and
`connect()`. -/
def SwiftService.start (co : ConnectOutcome) (s : ServiceState) :
    Except PyExn Unit × ServiceState :=
  match s.swift_process with
  | Option.none =>
    SwiftService.connect co
      { s with swift_process := some s.nextPid, nextPid := s.nextPid + 1 }
  | some _ => (.ok (), s)

/-- Lines 160-165, `SwiftService.ensure_connected()`: `start()` when no worker
process is tracked; else `connect()` when a stream attribute is `None`; else
nothing. -/
def SwiftService.ensure_connected (co : ConnectOutcome) (s : ServiceState) :
    Except PyExn Unit × ServiceState :=
  match s.swift_process with
  | Option.none => SwiftService.start co s
  | some _ =>
    if s.reader.isNone || s.writer.isNone then SwiftService.connect co s
    else (.ok (), s)

/-- The writer attribute refers to a live (not closed / not reset) stream. -/
def writerLive (s : ServiceState) : Bool :=
  match s.writer with
  | some w => !w.closed
  | Option.none => false

/-- What the wire does during one `write … readline` exchange: the worker's
decoded reply arrives, or an I/O error (broken pipe, reset) surfaces. -/
inductive ExchangeOutcome where
  | replies (response : List (String × PyVal))
  | ioError (msg : String)

/-- The environment effect of an I/O failure on the open stream pair: asyncio
tears the transport down, so the `StreamReader`/`StreamWriter` objects the
attributes still reference are dead afterwards (the attributes themselves are
untouched). -/
def markStreamsDead (s : ServiceState) : ServiceState :=
  { s with
    reader := s.reader.map (fun c => { c with closed := true }),
    writer := s.writer.map (fun c => { c with closed := true }) }

/-- Lines 167-220, `SwiftService.send_request` as a state transformer:
`ensure_connected()` runs *outside* the `try:` (its `McpError` propagates
unwrapped); the write/drain/readline exchange is summarised by the
`ExchangeOutcome` oracle, except that on a dead stream the exchange can only
fail (writing into a closed/reset transport cannot reach the worker — the
model fixes the representative message "Broken pipe"); any exception raised
inside the `try:` is re-raised by the line-213 handler as
`McpError(INTERNAL_ERROR, f"Swift service error: {str(e)}")`; a decoded reply
is interpreted by `sendRequestResult`.  No branch ever resets
`swift_process`/`reader`/`writer` (an I/O failure only kills the underlying
transport, `markStreamsDead`), so the state after a failed exchange is the
state the next call starts from. -/
def SwiftService.send_request (co : ConnectOutcome) (xo : ExchangeOutcome)
    (s : ServiceState) : Except PyExn PyVal × ServiceState :=
  match SwiftService.ensure_connected co s with
  | (.error e, s1) => (.error e, s1)
  | (.ok _, s1) =>
    match (if writerLive s1 then xo else .ioError "Broken pipe") with
    | .ioError m =>
      (.error (.mcpError ⟨INTERNAL_ERROR, "Swift service error: " ++ m⟩),
        markStreamsDead s1)
    | .replies resp =>
      match sendRequestResult resp with
      | .ok r => (.ok r, s1)
      | .error e => (.error (.mcpError e), s1)

/-- The state of the freshly imported module: no process, no streams. -/
def initialServiceState : ServiceState :=
  ⟨Option.none, Option.none, Option.none, 0, 0⟩

example :
    SwiftService.ensure_connected .ok initialServiceState =
      (.ok (), ⟨some 0, some ⟨0, false⟩, some ⟨0, false⟩, 1, 1⟩) := rfl

example :
    SwiftService.stop .ok .exits ⟨some 0, some ⟨0, false⟩, some ⟨0, false⟩, 1, 1⟩ =
      (.ok (), ⟨Option.none, some ⟨0, false⟩, some ⟨0, true⟩, 1, 1⟩) := rfl

/-! ## Concurrent exchanges on the shared connection (C1)

`send_request` performs `writer.write(...); await writer.drain()` and then
`await reader.readline()` with *no* lock, queue, or response-id check
(`response["id"]` is never compared to the request's id).  `await
writer.drain()` and `await reader.readline()` are suspension points, so under
asyncio two concurrent `send_request` calls on the shared singleton may
interleave their write and read steps arbitrarily, subject only to each
task's own program order (its write precedes its read) and to `readline`
blocking until a line is available.

The model: two tasks A and B each perform one exchange, identified by their
correlation ids.  The worker is the spec's test double: it answers requests
in arrival order, each response carrying the id of the request it answers.
`wire` is the FIFO of response lines available to `readline`; a read step
pops the front line whatever id it carries, exactly as the code's `readline`
does. -/

/-- One scheduler step of the two concurrent exchanges. -/
inductive XStep where
  | writeA
  | readA
  | writeB
  | readB
deriving DecidableEq

/-- Shared wire plus per-task progress: which requests have been written, and
the response line each task's `readline` returned (by the id it carries). -/
structure XState where
  wire : List Nat
  wroteA : Bool
  wroteB : Bool
  resA : Option Nat
  resB : Option Nat
deriving DecidableEq

/-- Small-step semantics: a write appends the (immediately answered) request's
id to the wire FIFO; a read pops the front line — `none` when the step is not
enabled (the task already did it, or `readline` would block on an empty
wire). -/
def xstep (idA idB : Nat) (st : XState) : XStep → Option XState
  | .writeA =>
    if st.wroteA then Option.none
    else some { st with wire := st.wire ++ [idA], wroteA := true }
  | .writeB =>
    if st.wroteB then Option.none
    else some { st with wire := st.wire ++ [idB], wroteB := true }
  | .readA =>
    if st.resA.isSome then Option.none
    else
      match st.wire with
      | r :: rest => some { st with wire := rest, resA := some r }
      | [] => Option.none
  | .readB =>
    if st.resB.isSome then Option.none
    else
      match st.wire with
      | r :: rest => some { st with wire := rest, resB := some r }
      | [] => Option.none

/-- Run a schedule from the idle state. -/
def xrun (idA idB : Nat) (sched : List XStep) : Option XState :=
  sched.foldlM (xstep idA idB) ⟨[], false, false, Option.none, Option.none⟩

/-- A schedule is an interleaving of the two tasks' program orders: projected
to task A it is exactly `[writeA, readA]`, projected to task B exactly
`[writeB, readB]`.  This is the only constraint the unlocked code imposes. -/
def programOrdered (sched : List XStep) : Bool :=
  sched.filter (fun st => st = .writeA || st = .readA) = [.writeA, .readA] &&
  sched.filter (fun st => st = .writeB || st = .readB) = [.writeB, .readB]

/-! ## The line-delimited JSON framing (C9)

`send_request` frames one request as `json.dumps(request).encode() + b'\n'`
and the worker-facing side of the protocol reads one line and decodes it with
`json.loads`.  `JVal` is the JSON fragment request lines inhabit — strings
and string-keyed objects; `params` maps strings to strings and the three
top-level fields are a string, a string, and the params object.  The
serializer reproduces `json.dumps` defaults: item separator `", "`, key
separator `": "`, and `ensure_ascii=True` escaping (short escapes, `\uXXXX`
for other characters outside `0x20..0x7E`, surrogate pairs above `0xFFFF`).
The parser is `json.loads` restricted to this fragment: quoted strings with
the full escape grammar (including `\uXXXX` surrogate pairs), objects with
interspersed JSON whitespace, strict rejection of raw control characters.
(A lone `\uXXXX` surrogate escape — which CPython would keep as a surrogate
code unit, unrepresentable in a Lean `Char` — makes the parser fail; `dumps`
output never contains one.) -/

mutual

/-- A JSON value of the fragment the dispatcher's request lines use. -/
inductive JVal where
  | str (s : String)
  | obj (ms : JMembers)

/-- The ordered members of a JSON object (Python dicts preserve insertion
order, and `json.dumps` emits it). -/
inductive JMembers where
  | nil
  | cons (k : String) (v : JVal) (rest : JMembers)

end

/-- Lowercase hex digit, as `'\u%04x' % n` produces. -/
def hexDig (n : Nat) : Char :=
  if n < 10 then Char.ofNat (48 + n) else Char.ofNat (87 + n)

/-- The four hex digits of `n < 0x10000`, as in `'\u%04x'`. -/
def hex4 (n : Nat) : List Char :=
  [hexDig (n / 4096 % 16), hexDig (n / 256 % 16), hexDig (n / 16 % 16), hexDig (n % 16)]

/-- `json.dumps` `ensure_ascii` escaping of one character: `\"` and `\\`, the
short control escapes, characters outside `0x20..0x7E` as `\uXXXX` (a
surrogate pair when above `0xFFFF`), everything else literal. -/
def escChar (c : Char) : List Char :=
  if c = '"' then ['\\', '"']
  else if c = '\\' then ['\\', '\\']
  else if c.toNat = 0x08 then ['\\', 'b']
  else if c.toNat = 0x0c then ['\\', 'f']
  else if c = '\n' then ['\\', 'n']
  else if c = '\r' then ['\\', 'r']
  else if c = '\t' then ['\\', 't']
  else if c.toNat < 0x20 ∨ 0x7f ≤ c.toNat then
    if c.toNat < 0x10000 then '\\' :: 'u' :: hex4 c.toNat
    else
      ('\\' :: 'u' :: hex4 (0xd800 + (c.toNat - 0x10000) / 0x400)) ++
      ('\\' :: 'u' :: hex4 (0xdc00 + (c.toNat - 0x10000) % 0x400))
  else [c]

/-- `json.dumps` of a string: the escaped characters between double quotes. -/
def escStr (s : String) : List Char :=
  '"' :: (s.toList.map escChar).flatten ++ ['"']

mutual

/-- `json.dumps(v)` (default separators) over the modelled fragment. -/
def dumpVal : JVal → List Char
  | .str s => escStr s
  | .obj ms => '{' :: dumpMembers ms ++ ['}']

/-- The members of an object, `", "`-separated, each `key": "value`. -/
def dumpMembers : JMembers → List Char
  | .nil => []
  | .cons k v .nil => escStr k ++ ':' :: ' ' :: dumpVal v
  | .cons k v (.cons k' v' rest) =>
    escStr k ++ ':' :: ' ' :: dumpVal v ++ ',' :: ' ' :: dumpMembers (.cons k' v' rest)

end

/-- JSON whitespace, as `json.loads` skips it. -/
def isJsonWs (c : Char) : Bool :=
  c = ' ' || c = '\t' || c = '\n' || c = '\r'

/-- Drop leading JSON whitespace. -/
def skipWs : List Char → List Char
  | c :: r => if isJsonWs c then skipWs r else c :: r
  | [] => []

/-- The value of one hex digit (`json.loads` accepts both cases). -/
def hexDigVal (c : Char) : Option Nat :=
  if '0' ≤ c ∧ c ≤ '9' then some (c.toNat - 48)
  else if 'a' ≤ c ∧ c ≤ 'f' then some (c.toNat - 87)
  else if 'A' ≤ c ∧ c ≤ 'F' then some (c.toNat - 55)
  else Option.none

/-- The value of a `\uXXXX` escape's four digits. -/
def parseHex4 (a b c d : Char) : Option Nat :=
  match hexDigVal a, hexDigVal b, hexDigVal c, hexDigVal d with
  | some x, some y, some z, some w => some (x * 4096 + y * 256 + z * 16 + w)
  | _, _, _, _ => Option.none

/-- The `\uXXXX` escape (its four hex digits onwards, after the `\u`), with
surrogate-pair combination when a high surrogate is followed by another
`\uXXXX` carrying a low one.  CPython would keep a lone surrogate escape as a
surrogate code unit in the result string; that is unrepresentable in a Lean
`Char`, so the model rejects it (`dumps` output never contains one). -/
def parseUnicodeEscape : List Char → Option (Char × List Char)
  | h1 :: h2 :: h3 :: h4 :: r2 =>
    match parseHex4 h1 h2 h3 h4 with
    | Option.none => Option.none
    | some n =>
      if 0xd800 ≤ n ∧ n ≤ 0xdbff then
        match r2 with
        | x1 :: x2 :: g1 :: g2 :: g3 :: g4 :: r3 =>
          if x1 = '\\' ∧ x2 = 'u' then
            match parseHex4 g1 g2 g3 g4 with
            | some m =>
              if 0xdc00 ≤ m ∧ m ≤ 0xdfff then
                some (Char.ofNat (0x10000 + (n - 0xd800) * 0x400 + (m - 0xdc00)), r3)
              else Option.none
            | Option.none => Option.none
          else Option.none
        | _ => Option.none
      else if 0xdc00 ≤ n ∧ n ≤ 0xdfff then Option.none
      else some (Char.ofNat n, r2)
  | _ => Option.none

/-- One escape sequence after a backslash, per the `json.loads` scanner: the
decoded character and the remaining input. -/
def parseEscape : List Char → Option (Char × List Char)
  | [] => Option.none
  | e :: r2 =>
    if e = '"' then some ('"', r2)
    else if e = '\\' then some ('\\', r2)
    else if e = '/' then some ('/', r2)
    else if e = 'b' then some (Char.ofNat 0x08, r2)
    else if e = 'f' then some (Char.ofNat 0x0c, r2)
    else if e = 'n' then some ('\n', r2)
    else if e = 'r' then some ('\r', r2)
    else if e = 't' then some ('\t', r2)
    else if e = 'u' then parseUnicodeEscape r2
    else Option.none

/-- The body of a JSON string after its opening quote, per the `json.loads`
scanner (strict mode): literal characters except raw controls (below `0x20`),
backslash escapes via `parseEscape`.  Returns the decoded characters and the
input after the closing quote.  `fuel` bounds the recursion; every step
consumes at least one input character, so the wrapper `parseStringBody` below
supplies enough for any input. -/
def parseStringBodyF : Nat → List Char → Option (List Char × List Char)
  | 0, _ => Option.none
  | _ + 1, [] => Option.none
  | fuel + 1, c :: r =>
    if c = '"' then some ([], r)
    else if c = '\\' then
      match parseEscape r with
      | some (d, r2) => (fun p => (d :: p.1, p.2)) <$> parseStringBodyF fuel r2
      | Option.none => Option.none
    else if c.toNat < 0x20 then Option.none
    else (fun p => (c :: p.1, p.2)) <$> parseStringBodyF fuel r

/-- String-body scanning with its fuel saturated. -/
def parseStringBody (l : List Char) : Option (List Char × List Char) :=
  parseStringBodyF (l.length + 1) l

mutual

/-- One JSON value of the modelled fragment: a string or an object.  `fuel`
bounds the recursion (the top-level entry point supplies more fuel than any
parse can consume, so the bound is never the reason a well-formed input is
rejected). -/
def parseVal : Nat → List Char → Option (JVal × List Char)
  | 0, _ => Option.none
  | _ + 1, '"' :: r =>
    (fun p => (JVal.str (String.mk p.1), p.2)) <$> parseStringBody r
  | fuel + 1, '{' :: r =>
    match skipWs r with
    | '}' :: r2 => some (.obj .nil, r2)
    | r1 => (fun p => (JVal.obj p.1, p.2)) <$> parseMembers fuel r1
  | _ + 1, _ => Option.none

/-- A nonempty member sequence `"key": value (, "key": value)*` followed by
the closing `}`, returning the members and the input after the brace. -/
def parseMembers : Nat → List Char → Option (JMembers × List Char)
  | 0, _ => Option.none
  | fuel + 1, '"' :: r =>
    match parseStringBody r with
    | Option.none => Option.none
    | some (k, r2) =>
      match skipWs r2 with
      | ':' :: r3 =>
        match parseVal fuel (skipWs r3) with
        | Option.none => Option.none
        | some (v, r4) =>
          match skipWs r4 with
          | ',' :: r5 =>
            (fun p => (JMembers.cons (String.mk k) v p.1, p.2)) <$>
              parseMembers fuel (skipWs r5)
          | '}' :: r5 => some (.cons (String.mk k) v .nil, r5)
          | _ => Option.none
      | _ => Option.none
  | _ + 1, _ => Option.none

end

/-- `json.loads` over the modelled fragment: skip surrounding whitespace,
parse one value, require nothing but whitespace after it.  The fuel
`s.length + 1` dominates the nesting depth of anything `s` can encode. -/
def jsonLoads (s : String) : Option JVal :=
  match parseVal (s.length + 1) (skipWs s.toList) with
  | some (v, r) => if skipWs r = [] then some v else Option.none
  | Option.none => Option.none

/-! ## The dispatcher's request object -/

/-- The dict built at lines 172-176 of `send_request`:
`{"id": str(id(params)), "method": method, "params": params}` with `params` a
string-keyed, string-valued mapping. -/
structure PyRequest where
  reqId : String
  method : String
  params : List (String × String)

/-- The params dict as JSON object members (insertion order). -/
def paramsToMembers : List (String × String) → JMembers
  | [] => .nil
  | (k, v) :: rest => .cons k (.str v) (paramsToMembers rest)

/-- The request dict as the JSON value `json.dumps` receives. -/
def reqToJVal (r : PyRequest) : JVal :=
  .obj (.cons "id" (.str r.reqId)
    (.cons "method" (.str r.method)
      (.cons "params" (.obj (paramsToMembers r.params)) .nil)))

/-- Line 178: the framed request line `json.dumps(request).encode() + b'\n'`
(UTF-8 of an `ensure_ascii` dump is its character sequence). -/
def encodeRequestLine (r : PyRequest) : String :=
  String.mk (dumpVal (reqToJVal r) ++ ['\n'])

example :
    encodeRequestLine ⟨"140", "search_pattern", [("pattern", "myFunc"), ("options", "ignoreCase")]⟩ =
      "\x7b\"id\": \"140\", \"method\": \"search_pattern\", \"params\": \x7b\"pattern\": \"myFunc\", \"options\": \"ignoreCase\"\x7d\x7d\n" := rfl

example :
    jsonLoads "\x7b\"id\": \"1\", \"method\": \"m\", \"params\": \x7b\x7d\x7d\n" =
      some (reqToJVal ⟨"1", "m", []⟩) := rfl


/-! ## Round-trip of the framing (towards C9) -/

theorem hexDigVal_hexDig : ∀ {d : Nat}, d < 16 → hexDigVal (hexDig d) = some d := by
  have H : ∀ d, d < 16 → hexDigVal (hexDig d) = some d := by decide
  intro d h
  exact H d h

theorem parseHex4_hex4 {n : Nat} (h : n < 65536) :
    parseHex4 (hexDig (n / 4096 % 16)) (hexDig (n / 256 % 16)) (hexDig (n / 16 % 16))
      (hexDig (n % 16)) = some n := by
  unfold parseHex4
  rw [hexDigVal_hexDig (by omega), hexDigVal_hexDig (by omega),
    hexDigVal_hexDig (by omega), hexDigVal_hexDig (by omega)]
  have e : n / 4096 % 16 * 4096 + n / 256 % 16 * 256 + n / 16 % 16 * 16 + n % 16 = n := by
    omega
  simp [e]

/-- Every `Char` carries a valid Unicode scalar value: below the surrogate
range or strictly between it and `0x110000`. -/
theorem char_scalar (c : Char) : c.toNat < 0xd800 ∨ (0xdfff < c.toNat ∧ c.toNat < 0x110000) :=
  c.valid

theorem parseUnicodeEscape_single {n : Nat} (h1 : n < 65536)
    (hs1 : ¬(0xd800 ≤ n ∧ n ≤ 0xdbff)) (hs2 : ¬(0xdc00 ≤ n ∧ n ≤ 0xdfff)) (T : List Char) :
    parseUnicodeEscape (hex4 n ++ T) = some (Char.ofNat n, T) := by
  simp only [hex4, List.cons_append, List.nil_append]
  simp only [parseUnicodeEscape, parseHex4_hex4 h1]
  simp [hs1, hs2]

theorem parseUnicodeEscape_pair {n m : Nat} (hn : n < 65536) (hm : m < 65536)
    (h1 : 0xd800 ≤ n ∧ n ≤ 0xdbff) (h2 : 0xdc00 ≤ m ∧ m ≤ 0xdfff) (T : List Char) :
    parseUnicodeEscape (hex4 n ++ '\\' :: 'u' :: (hex4 m ++ T)) =
      some (Char.ofNat (0x10000 + (n - 0xd800) * 0x400 + (m - 0xdc00)), T) := by
  simp only [hex4, List.cons_append, List.nil_append]
  simp only [parseUnicodeEscape, parseHex4_hex4 hn, parseHex4_hex4 hm]
  simp +decide [h1, h2]

theorem psbF_quote (fuel : Nat) (r : List Char) :
    parseStringBodyF (fuel + 1) ('"' :: r) = some ([], r) := by
  simp [parseStringBodyF]

theorem psbF_esc (fuel : Nat) {r : List Char} {d : Char} {r2 : List Char}
    (h : parseEscape r = some (d, r2)) :
    parseStringBodyF (fuel + 1) ('\\' :: r) =
      (fun p => (d :: p.1, p.2)) <$> parseStringBodyF fuel r2 := by
  simp [parseStringBodyF, h]

theorem psbF_lit {c : Char} (h1 : ¬ c = '"') (h2 : ¬ c = '\\') (h3 : ¬ c.toNat < 0x20)
    (fuel : Nat) (r : List Char) :
    parseStringBodyF (fuel + 1) (c :: r) =
      (fun p => (c :: p.1, p.2)) <$> parseStringBodyF fuel r := by
  simp [parseStringBodyF, h1, h2, h3]

theorem psbF_escChar_quote (fuel : Nat) {T cs rest : List Char}
    (IH : parseStringBodyF fuel T = some (cs, rest)) :
    parseStringBodyF (fuel + 1) (escChar '"' ++ T) = some ('"' :: cs, rest) := by
  have e1 : escChar '"' = ['\\', '"'] := rfl
  have e2 : parseEscape ('"' :: T) = some ('"', T) := rfl
  rw [e1]
  simp only [List.cons_append, List.nil_append]
  rw [psbF_esc fuel e2, IH]
  rfl

theorem psbF_escChar_backslash (fuel : Nat) {T cs rest : List Char}
    (IH : parseStringBodyF fuel T = some (cs, rest)) :
    parseStringBodyF (fuel + 1) (escChar '\\' ++ T) = some ('\\' :: cs, rest) := by
  have e1 : escChar '\\' = ['\\', '\\'] := rfl
  have e2 : parseEscape ('\\' :: T) = some ('\\', T) := rfl
  rw [e1]
  simp only [List.cons_append, List.nil_append]
  rw [psbF_esc fuel e2, IH]
  rfl

theorem psbF_escChar_b (c : Char) (fuel : Nat) {T cs rest : List Char}
    (h3 : c.toNat = 0x08) (IH : parseStringBodyF fuel T = some (cs, rest)) :
    parseStringBodyF (fuel + 1) (escChar c ++ T) = some (c :: cs, rest) := by
  have hc : c = Char.ofNat 0x08 := by
    rw [← Char.ofNat_toNat c, h3]
  subst hc
  have e1 : escChar (Char.ofNat 0x08) = ['\\', 'b'] := rfl
  have e2 : parseEscape ('b' :: T) = some (Char.ofNat 0x08, T) := rfl
  rw [e1]
  simp only [List.cons_append, List.nil_append]
  rw [psbF_esc fuel e2, IH]
  rfl

theorem psbF_escChar_f (c : Char) (fuel : Nat) {T cs rest : List Char}
    (h4 : c.toNat = 0x0c) (IH : parseStringBodyF fuel T = some (cs, rest)) :
    parseStringBodyF (fuel + 1) (escChar c ++ T) = some (c :: cs, rest) := by
  have hc : c = Char.ofNat 0x0c := by
    rw [← Char.ofNat_toNat c, h4]
  subst hc
  have e1 : escChar (Char.ofNat 0x0c) = ['\\', 'f'] := rfl
  have e2 : parseEscape ('f' :: T) = some (Char.ofNat 0x0c, T) := rfl
  rw [e1]
  simp only [List.cons_append, List.nil_append]
  rw [psbF_esc fuel e2, IH]
  rfl

theorem psbF_escChar_n (fuel : Nat) {T cs rest : List Char}
    (IH : parseStringBodyF fuel T = some (cs, rest)) :
    parseStringBodyF (fuel + 1) (escChar '\n' ++ T) = some ('\n' :: cs, rest) := by
  have e1 : escChar '\n' = ['\\', 'n'] := rfl
  have e2 : parseEscape ('n' :: T) = some ('\n', T) := rfl
  rw [e1]
  simp only [List.cons_append, List.nil_append]
  rw [psbF_esc fuel e2, IH]
  rfl

theorem psbF_escChar_r (fuel : Nat) {T cs rest : List Char}
    (IH : parseStringBodyF fuel T = some (cs, rest)) :
    parseStringBodyF (fuel + 1) (escChar '\r' ++ T) = some ('\r' :: cs, rest) := by
  have e1 : escChar '\r' = ['\\', 'r'] := rfl
  have e2 : parseEscape ('r' :: T) = some ('\r', T) := rfl
  rw [e1]
  simp only [List.cons_append, List.nil_append]
  rw [psbF_esc fuel e2, IH]
  rfl

theorem psbF_escChar_t (fuel : Nat) {T cs rest : List Char}
    (IH : parseStringBodyF fuel T = some (cs, rest)) :
    parseStringBodyF (fuel + 1) (escChar '\t' ++ T) = some ('\t' :: cs, rest) := by
  have e1 : escChar '\t' = ['\\', 't'] := rfl
  have e2 : parseEscape ('t' :: T) = some ('\t', T) := rfl
  rw [e1]
  simp only [List.cons_append, List.nil_append]
  rw [psbF_esc fuel e2, IH]
  rfl

theorem psbF_escChar_uSingle (c : Char) (fuel : Nat) {T cs rest : List Char}
    (IH : parseStringBodyF fuel T = some (cs, rest))
    (h1 : ¬ c = '"') (h2 : ¬ c = '\\') (h3 : ¬ c.toNat = 0x08) (h4 : ¬ c.toNat = 0x0c)
    (h5 : ¬ c = '\n') (h6 : ¬ c = '\r') (h7 : ¬ c = '\t')
    (h8 : c.toNat < 0x20 ∨ 0x7f ≤ c.toNat) (h9 : c.toNat < 0x10000) :
    parseStringBodyF (fuel + 1) (escChar c ++ T) = some (c :: cs, rest) := by
  have hval := char_scalar c
  have e1 : escChar c =
      if c.toNat < 0x10000 then '\\' :: 'u' :: hex4 c.toNat
      else
        ('\\' :: 'u' :: hex4 (0xd800 + (c.toNat - 0x10000) / 0x400)) ++
        ('\\' :: 'u' :: hex4 (0xdc00 + (c.toNat - 0x10000) % 0x400)) := by
    unfold escChar
    rw [if_neg h1, if_neg h2, if_neg h3, if_neg h4, if_neg h5, if_neg h6, if_neg h7,
      if_pos h8]
  rw [e1, if_pos h9]
  have hs1 : ¬(0xd800 ≤ c.toNat ∧ c.toNat ≤ 0xdbff) := by omega
  have hs2 : ¬(0xdc00 ≤ c.toNat ∧ c.toNat ≤ 0xdfff) := by omega
  have hu := parseUnicodeEscape_single h9 hs1 hs2 T
  have e2 : parseEscape ('u' :: (hex4 c.toNat ++ T)) =
      parseUnicodeEscape (hex4 c.toNat ++ T) := rfl
  rw [hu] at e2
  simp only [List.cons_append, List.append_assoc]
  rw [psbF_esc fuel e2, IH]
  simp [Char.ofNat_toNat]

theorem psbF_escChar_uPairBack (c : Char) (A B : Nat) (fuel : Nat) {T cs rest : List Char}
    (IH : parseStringBodyF fuel T = some (cs, rest))
    (h9 : ¬ c.toNat < 0x10000)
    (hA : 0xd800 + (c.toNat - 0x10000) / 0x400 = A)
    (hB : 0xdc00 + (c.toNat - 0x10000) % 0x400 = B) :
    parseStringBodyF (fuel + 1)
      (('\\' :: 'u' :: hex4 A) ++ ('\\' :: 'u' :: hex4 B) ++ T) =
      some (c :: cs, rest) := by
  have hval := char_scalar c
  have hhi : A < 65536 := by
    omega
  have hlo : B < 65536 := by
    have := Nat.mod_lt (c.toNat - 0x10000) (y := 0x400) (by omega)
    omega
  have hhi1 : 0xd800 ≤ A ∧ A ≤ 0xdbff := by
    have hq : (c.toNat - 0x10000) / 0x400 ≤ 0x3ff := by omega
    omega
  have hlo1 : 0xdc00 ≤ B ∧ B ≤ 0xdfff := by
    have := Nat.mod_lt (c.toNat - 0x10000) (y := 0x400) (by omega)
    omega
  have hu := parseUnicodeEscape_pair hhi hlo hhi1 hlo1 T
  have hcomb : 0x10000 + (A - 0xd800) * 0x400 + (B - 0xdc00) = c.toNat := by
    have := Nat.div_add_mod (c.toNat - 0x10000) 0x400
    omega
  rw [hcomb] at hu
  have e2 : parseEscape ('u' :: (hex4 A ++ ('\\' :: 'u' :: (hex4 B ++ T)))) =
      parseUnicodeEscape (hex4 A ++ ('\\' :: 'u' :: (hex4 B ++ T))) := rfl
  rw [hu] at e2
  simp only [List.cons_append, List.append_assoc]
  rw [psbF_esc fuel e2, IH]
  show some (Char.ofNat c.toNat :: cs, rest) = some (c :: cs, rest)
  rw [Char.ofNat_toNat]

theorem psbF_escChar_uPair (c : Char) (fuel : Nat) {T cs rest : List Char}
    (IH : parseStringBodyF fuel T = some (cs, rest))
    (h1 : ¬ c = '"') (h2 : ¬ c = '\\') (h3 : ¬ c.toNat = 0x08) (h4 : ¬ c.toNat = 0x0c)
    (h5 : ¬ c = '\n') (h6 : ¬ c = '\r') (h7 : ¬ c = '\t')
    (h8 : c.toNat < 0x20 ∨ 0x7f ≤ c.toNat) (h9 : ¬ c.toNat < 0x10000) :
    parseStringBodyF (fuel + 1) (escChar c ++ T) = some (c :: cs, rest) := by
  have e1 : escChar c =
      if c.toNat < 0x10000 then '\\' :: 'u' :: hex4 c.toNat
      else
        ('\\' :: 'u' :: hex4 (0xd800 + (c.toNat - 0x10000) / 0x400)) ++
        ('\\' :: 'u' :: hex4 (0xdc00 + (c.toNat - 0x10000) % 0x400)) := by
    unfold escChar
    rw [if_neg h1, if_neg h2, if_neg h3, if_neg h4, if_neg h5, if_neg h6, if_neg h7,
      if_pos h8]
  rw [e1, if_neg h9]
  generalize hA : 0xd800 + (c.toNat - 0x10000) / 0x400 = A
  generalize hB : 0xdc00 + (c.toNat - 0x10000) % 0x400 = B
  exact psbF_escChar_uPairBack c A B fuel IH h9 hA hB

theorem psbF_escChar_lit (c : Char) (fuel : Nat) {T cs rest : List Char}
    (IH : parseStringBodyF fuel T = some (cs, rest))
    (h1 : ¬ c = '"') (h2 : ¬ c = '\\') (h3 : ¬ c.toNat = 0x08) (h4 : ¬ c.toNat = 0x0c)
    (h5 : ¬ c = '\n') (h6 : ¬ c = '\r') (h7 : ¬ c = '\t')
    (h8 : ¬ (c.toNat < 0x20 ∨ 0x7f ≤ c.toNat)) :
    parseStringBodyF (fuel + 1) (escChar c ++ T) = some (c :: cs, rest) := by
  have e1 : escChar c = [c] := by
    unfold escChar
    rw [if_neg h1, if_neg h2, if_neg h3, if_neg h4, if_neg h5, if_neg h6, if_neg h7,
      if_neg h8]
  have h10 : ¬ c.toNat < 0x20 := by omega
  rw [e1]
  simp only [List.cons_append, List.nil_append]
  rw [psbF_lit h1 h2 h10 fuel T, IH]
  rfl

/-- Scanning one escaped character consumes its whole escape (or literal) and
yields the character back, at one fuel tick. -/
theorem parseStringBodyF_escChar (c : Char) (fuel : Nat) {T cs rest : List Char}
    (IH : parseStringBodyF fuel T = some (cs, rest)) :
    parseStringBodyF (fuel + 1) (escChar c ++ T) = some (c :: cs, rest) := by
  by_cases h1 : c = '"'
  · subst h1
    exact psbF_escChar_quote fuel IH
  by_cases h2 : c = '\\'
  · subst h2
    exact psbF_escChar_backslash fuel IH
  by_cases h3 : c.toNat = 0x08
  · exact psbF_escChar_b c fuel h3 IH
  by_cases h4 : c.toNat = 0x0c
  · exact psbF_escChar_f c fuel h4 IH
  by_cases h5 : c = '\n'
  · subst h5
    exact psbF_escChar_n fuel IH
  by_cases h6 : c = '\r'
  · subst h6
    exact psbF_escChar_r fuel IH
  by_cases h7 : c = '\t'
  · subst h7
    exact psbF_escChar_t fuel IH
  by_cases h8 : c.toNat < 0x20 ∨ 0x7f ≤ c.toNat
  · by_cases h9 : c.toNat < 0x10000
    · exact psbF_escChar_uSingle c fuel IH h1 h2 h3 h4 h5 h6 h7 h8 h9
    · exact psbF_escChar_uPair c fuel IH h1 h2 h3 h4 h5 h6 h7 h8 h9
  · exact psbF_escChar_lit c fuel IH h1 h2 h3 h4 h5 h6 h7 h8

/-- The whole escaped string body (all characters, then the closing quote)
scans back to the original characters, given one fuel tick per character. -/
theorem parseStringBodyF_escape (cs : List Char) :
    ∀ (fuel : Nat) (rest : List Char), cs.length < fuel →
      parseStringBodyF fuel ((cs.map escChar).flatten ++ '"' :: rest) = some (cs, rest) := by
  induction cs with
  | nil =>
    intro fuel rest h
    match fuel, h with
    | fuel + 1, _ => exact psbF_quote fuel rest
  | cons c cs ih =>
    intro fuel rest h
    match fuel, h with
    | fuel + 1, h =>
      have step := parseStringBodyF_escChar c fuel (ih fuel rest (by simpa using h))
      simpa [List.append_assoc] using step

theorem escChar_length_pos (c : Char) : 1 ≤ (escChar c).length := by
  unfold escChar
  split_ifs <;> simp [hex4]

theorem length_le_flatten_escChar (cs : List Char) :
    cs.length ≤ ((cs.map escChar).flatten).length := by
  induction cs with
  | nil => simp
  | cons c cs ih =>
    have := escChar_length_pos c
    simp only [List.map_cons, List.flatten_cons, List.length_append, List.length_cons]
    omega

/-- The saturated-fuel wrapper parses a full escaped body back. -/
theorem parseStringBody_escape (cs : List Char) (rest : List Char) :
    parseStringBody ((cs.map escChar).flatten ++ '"' :: rest) = some (cs, rest) := by
  unfold parseStringBody
  apply parseStringBodyF_escape
  have := length_le_flatten_escChar cs
  simp only [List.length_append, List.length_cons]
  omega

/-! ### Parsing whole dumped values back -/

mutual

/-- A fuel bound for `parseVal`: one tick per nested value. -/
def jsize : JVal → Nat
  | .str _ => 1
  | .obj ms => msize ms + 1

/-- A fuel bound for `parseMembers`. -/
def msize : JMembers → Nat
  | .nil => 0
  | .cons _ v rest => jsize v + msize rest + 1

end

theorem jsize_pos (v : JVal) : 1 ≤ jsize v := by
  cases v <;> simp [jsize]

theorem skipWs_notWs {c : Char} (h : isJsonWs c = false) (r : List Char) :
    skipWs (c :: r) = c :: r := by
  simp [skipWs, h]

theorem skipWs_space (r : List Char) : skipWs (' ' :: r) = skipWs r := by
  simp [skipWs, isJsonWs]

/-- A dumped value starts with `"` or `{`, never whitespace. -/
theorem skipWs_dumpVal (v : JVal) (X : List Char) :
    skipWs (dumpVal v ++ X) = dumpVal v ++ X := by
  cases v with
  | str s =>
    simp only [dumpVal, escStr, List.cons_append]
    exact skipWs_notWs (by decide) _
  | obj ms =>
    simp only [dumpVal, List.cons_append]
    exact skipWs_notWs (by decide) _

theorem string_mk_toList (s : String) : String.mk s.toList = s := rfl

theorem string_mk_data (s : String) : String.mk s.data = s := rfl

theorem parseVal_dump_str (fuel : Nat) (s : String) (rest : List Char) :
    parseVal (fuel + 1) (dumpVal (.str s) ++ rest) = some (.str s, rest) := by
  have h := parseStringBody_escape s.toList rest
  simp only [dumpVal, escStr, List.cons_append, List.append_assoc, List.singleton_append]
  simp [parseVal]
  exact ⟨s.data, h, rfl⟩

theorem parseVal_dump_obj_nil (fuel : Nat) (rest : List Char) :
    parseVal (fuel + 1) (dumpVal (.obj .nil) ++ rest) = some (.obj .nil, rest) := by
  simp only [dumpVal, dumpMembers, List.nil_append, List.cons_append,
    List.singleton_append]
  simp [parseVal, skipWs_notWs (by decide : isJsonWs '}' = false)]

theorem dumpMembers_cons_shape (k : String) (v : JVal) (t : JMembers) :
    ∃ Y, dumpMembers (.cons k v t) = '"' :: Y := by
  cases t with
  | nil =>
    refine ⟨(k.toList.map escChar).flatten ++ '"' :: ':' :: ' ' :: dumpVal v, ?_⟩
    simp [dumpMembers, escStr, List.cons_append, List.append_assoc]
  | cons k2 v2 t2 =>
    refine ⟨(k.toList.map escChar).flatten ++ '"' :: ':' :: ' ' ::
      (dumpVal v ++ ',' :: ' ' :: dumpMembers (.cons k2 v2 t2)), ?_⟩
    simp [dumpMembers, escStr, List.cons_append, List.append_assoc]

theorem parseVal_dump_obj_cons (fuel : Nat) (k : String) (v : JVal) (tail : JMembers)
    (rest : List Char)
    (H : parseMembers fuel (dumpMembers (.cons k v tail) ++ '}' :: rest) =
      some (.cons k v tail, rest)) :
    parseVal (fuel + 1) (dumpVal (.obj (.cons k v tail)) ++ rest) =
      some (.obj (.cons k v tail), rest) := by
  obtain ⟨Y, hY⟩ := dumpMembers_cons_shape k v tail
  simp only [dumpVal, List.cons_append, List.append_assoc, List.singleton_append]
  rw [hY] at H ⊢
  simp only [List.cons_append] at H ⊢
  simp [parseVal, skipWs_notWs (by decide : isJsonWs '"' = false), H]

theorem parseMembers_dump_nil (fuel : Nat) (k : String) (v : JVal) (rest : List Char)
    (Hv : parseVal fuel (dumpVal v ++ '}' :: rest) = some (v, '}' :: rest)) :
    parseMembers (fuel + 1) (dumpMembers (.cons k v .nil) ++ '}' :: rest) =
      some (.cons k v .nil, rest) := by
  have hk := parseStringBody_escape k.data (':' :: ' ' :: (dumpVal v ++ '}' :: rest))
  simp only [dumpMembers, escStr, List.cons_append, List.append_assoc,
    List.singleton_append]
  simp [parseMembers, hk, skipWs_notWs, skipWs_space, skipWs_dumpVal, Hv,
    string_mk_data, isJsonWs]

theorem parseMembers_dump_cons (fuel : Nat) (k : String) (v : JVal) (k2 : String)
    (v2 : JVal) (t2 : JMembers) (rest : List Char)
    (Hv : parseVal fuel
        (dumpVal v ++ ',' :: ' ' :: (dumpMembers (.cons k2 v2 t2) ++ '}' :: rest)) =
      some (v, ',' :: ' ' :: (dumpMembers (.cons k2 v2 t2) ++ '}' :: rest)))
    (Hm : parseMembers fuel (dumpMembers (.cons k2 v2 t2) ++ '}' :: rest) =
      some (.cons k2 v2 t2, rest)) :
    parseMembers (fuel + 1) (dumpMembers (.cons k v (.cons k2 v2 t2)) ++ '}' :: rest) =
      some (.cons k v (.cons k2 v2 t2), rest) := by
  obtain ⟨Y, hY⟩ := dumpMembers_cons_shape k2 v2 t2
  rw [hY] at Hv Hm
  simp only [List.cons_append] at Hv Hm
  simp only [dumpMembers]
  rw [hY]
  have hk := parseStringBody_escape k.data
    (':' :: ' ' :: (dumpVal v ++ ',' :: ' ' :: ('"' :: (Y ++ '}' :: rest))))
  simp only [escStr, List.cons_append, List.append_assoc, List.singleton_append]
  simp [parseMembers, hk, skipWs_notWs, skipWs_space, skipWs_dumpVal, Hv, Hm,
    string_mk_data, isJsonWs]

/-- With fuel at least the nested size, every dumped value (followed by
anything) parses back to itself, and likewise every dumped nonempty member
list followed by its closing brace. -/
theorem parse_dump (fuel : Nat) :
    (∀ (v : JVal) (rest : List Char), jsize v ≤ fuel →
      parseVal fuel (dumpVal v ++ rest) = some (v, rest)) ∧
    (∀ (ms : JMembers) (rest : List Char), ms ≠ JMembers.nil → msize ms ≤ fuel →
      parseMembers fuel (dumpMembers ms ++ '}' :: rest) = some (ms, rest)) := by
  induction fuel with
  | zero =>
    constructor
    · intro v rest h
      have := jsize_pos v
      omega
    · intro ms rest hne h
      cases ms with
      | nil => exact absurd rfl hne
      | cons k v t =>
        simp [msize] at h
  | succ fuel ih =>
    obtain ⟨ihv, ihm⟩ := ih
    constructor
    · intro v rest h
      cases v with
      | str s => exact parseVal_dump_str fuel s rest
      | obj ms =>
        cases ms with
        | nil => exact parseVal_dump_obj_nil fuel rest
        | cons k v2 t =>
          apply parseVal_dump_obj_cons
          apply ihm
          · exact fun hx => JMembers.noConfusion hx
          · have e : jsize (JVal.obj (.cons k v2 t)) = msize (.cons k v2 t) + 1 := rfl
            omega
    · intro ms rest hne h
      cases ms with
      | nil => exact absurd rfl hne
      | cons k v t =>
        cases t with
        | nil =>
          apply parseMembers_dump_nil
          apply ihv
          have e : msize (JMembers.cons k v .nil) = jsize v + 1 := rfl
          omega
        | cons k2 v2 t2 =>
          have e : msize (JMembers.cons k v (.cons k2 v2 t2)) =
              jsize v + msize (.cons k2 v2 t2) + 1 := rfl
          have e2 : 1 ≤ msize (JMembers.cons k2 v2 t2) := by
            simp [msize]
          apply parseMembers_dump_cons
          · apply ihv
            omega
          · apply ihm
            · exact fun hx => JMembers.noConfusion hx
            · omega

mutual

/-- The parse fuel a value needs is dominated by the length of its dump. -/
theorem jsize_le_dump : ∀ v : JVal, jsize v ≤ (dumpVal v).length
  | .str s => by
    simp [jsize, dumpVal, escStr]
  | .obj ms => by
    have hm := msize_le_dump ms
    simp only [jsize, dumpVal, List.length_append, List.length_cons]
    omega

/-- Likewise for member lists (up to the final brace). -/
theorem msize_le_dump : ∀ ms : JMembers, msize ms ≤ (dumpMembers ms).length + 1
  | .nil => by simp [msize, dumpMembers]
  | .cons k v .nil => by
    have hv := jsize_le_dump v
    have e : msize (JMembers.cons k v .nil) = jsize v + 1 := rfl
    have hk : 2 ≤ (escStr k).length := by simp [escStr]
    rw [e]
    simp only [dumpMembers, List.length_append, List.length_cons]
    omega
  | .cons k v (.cons k2 v2 t2) => by
    have hv := jsize_le_dump v
    have hm := msize_le_dump (.cons k2 v2 t2)
    have e : msize (JMembers.cons k v (.cons k2 v2 t2)) =
        jsize v + msize (.cons k2 v2 t2) + 1 := rfl
    have hk : 2 ≤ (escStr k).length := by simp [escStr]
    rw [e]
    simp only [dumpMembers, List.length_append, List.length_cons]
    omega

end

/-- `json.loads` undoes `json.dumps` on a framed line: a dumped value followed
by the newline the framing appends parses back to exactly that value. -/
theorem jsonLoads_dump_line (v : JVal) :
    jsonLoads (String.mk (dumpVal v ++ ['\n'])) = some v := by
  unfold jsonLoads
  have htl : (String.mk (dumpVal v ++ ['\n'])).toList = dumpVal v ++ ['\n'] := rfl
  have hlen : (String.mk (dumpVal v ++ ['\n'])).length = (dumpVal v).length + 1 := by
    show (dumpVal v ++ ['\n']).length = (dumpVal v).length + 1
    simp
  rw [htl, hlen, skipWs_dumpVal v ['\n']]
  have hp := (parse_dump ((dumpVal v).length + 1 + 1)).1 v ['\n']
    (by have := jsize_le_dump v; omega)
  rw [hp]
  simp [skipWs, isJsonWs]

/-! ## The claims -/

/-- C1: the claim asserts that two concurrent `send_request` calls sharing the
one worker connection have their write+read exchanges kept atomic by a lock or
exchange queue, each call's result matching its own request.  The code holds
no lock and never compares `response["id"]` with the request id, so the
program-ordered interleaving write-A, write-B, read-B, read-A is schedulable —
and in it call B's `readline` returns the response correlated with call A's
request (ids crossed: A sent 1 and received 2, B sent 2 and received 1).  This
refutes the claim on the code; the spec is the intent (its §5 calls the lock
the critical invariant) and the missing lock is the bug. -/
theorem claim_C1_crossed_exchange :
    programOrdered [XStep.writeA, XStep.writeB, XStep.readB, XStep.readA] = true ∧
    xrun 1 2 [XStep.writeA, XStep.writeB, XStep.readB, XStep.readA] =
      some ⟨[], true, true, some 2, some 1⟩ := by
  exact ⟨rfl, rfl⟩

/-- C2: the claim says a result-embedded error raises the INVALID_PARAMS
envelope carrying that message.  Lines 184-203 do raise
`McpError(INVALID_PARAMS, "bad usr")` — but `send_request`'s own
`except Exception` clause catches that `McpError` and re-raises
`McpError(INTERNAL_ERROR, "Swift service error: bad usr")`, so the caller
never sees INVALID_PARAMS (the sibling tools all have `except McpError:
raise`; `send_request` lacks it).  The top-level-error case keeps its
INTERNAL_ERROR kind but its message is prefixed the same way. -/
theorem claim_C2_embedded_error_rewrapped :
    handleDecodedResponse [("result", PyVal.dict [("error", PyVal.str "bad usr")])] =
      .error ⟨INVALID_PARAMS, "bad usr"⟩ ∧
    sendRequestResult [("result", PyVal.dict [("error", PyVal.str "bad usr")])] =
      .error ⟨INTERNAL_ERROR, "Swift service error: bad usr"⟩ ∧
    sendRequestResult [("error", PyVal.str "boom"), ("result", PyVal.none)] =
      .error ⟨INTERNAL_ERROR, "Swift service error: boom"⟩ ∧
    sendRequestResult [("result", PyVal.str "fine")] = .ok (PyVal.str "fine") := by
  exact ⟨rfl, rfl, rfl, rfl⟩

/-- C3: the claim says that after `stop()` completes, the next call that needs
the worker triggers a fresh `start()` *and a successful reconnect*.  Starting
from the module's initial state: one call connects (worker pid 0, stream pair
0); `stop()` closes the writer and clears the worker but leaves
`self.reader`/`self.writer` referencing the dead pair; the next
`ensure_connected()` does spawn a fresh worker (pid 1) but `connect()` sees
both attributes non-None and opens nothing (the connection counter still reads
1), so the service is left holding the closed stream pair and the following
exchange fails even though the fresh worker would answer. -/
theorem claim_C3_no_reconnect_after_stop :
    SwiftService.ensure_connected .ok initialServiceState =
      (.ok (), ⟨some 0, some ⟨0, false⟩, some ⟨0, false⟩, 1, 1⟩) ∧
    SwiftService.stop .ok .exits ⟨some 0, some ⟨0, false⟩, some ⟨0, false⟩, 1, 1⟩ =
      (.ok (), ⟨Option.none, some ⟨0, false⟩, some ⟨0, true⟩, 1, 1⟩) ∧
    SwiftService.ensure_connected .ok ⟨Option.none, some ⟨0, false⟩, some ⟨0, true⟩, 1, 1⟩ =
      (.ok (), ⟨some 1, some ⟨0, false⟩, some ⟨0, true⟩, 2, 1⟩) ∧
    writerLive ⟨some 1, some ⟨0, false⟩, some ⟨0, true⟩, 2, 1⟩ = false ∧
    (SwiftService.send_request .ok (.replies [("result", PyVal.str "ok")])
        ⟨some 1, some ⟨0, false⟩, some ⟨0, true⟩, 2, 1⟩).1 =
      .error (.mcpError ⟨INTERNAL_ERROR, "Swift service error: Broken pipe"⟩) := by
  exact ⟨rfl, rfl, rfl, rfl, rfl⟩

/-- C4: the claim says a call failing mid-exchange is not retried (true) and
that the *next* call's `ensure_connected()` re-establishes the worker and/or
connection so it transparently reconnects and succeeds.  But a mid-exchange
I/O failure leaves `swift_process`, `reader` and `writer` all set (only the
underlying transport is dead), and `ensure_connected()` then matches neither
of its two repair conditions and does exactly nothing — the next call reuses
the dead stream pair and fails as well.  Nothing ever invalidates the
connection, so no later call succeeds either. -/
theorem claim_C4_next_call_does_not_reconnect :
    SwiftService.send_request .ok (.ioError "Connection reset by peer")
        ⟨some 0, some ⟨0, false⟩, some ⟨0, false⟩, 1, 1⟩ =
      (.error (.mcpError ⟨INTERNAL_ERROR, "Swift service error: Connection reset by peer"⟩),
        ⟨some 0, some ⟨0, true⟩, some ⟨0, true⟩, 1, 1⟩) ∧
    SwiftService.ensure_connected .ok ⟨some 0, some ⟨0, true⟩, some ⟨0, true⟩, 1, 1⟩ =
      (.ok (), ⟨some 0, some ⟨0, true⟩, some ⟨0, true⟩, 1, 1⟩) ∧
    (SwiftService.send_request .ok (.replies [("result", PyVal.str "ok")])
        ⟨some 0, some ⟨0, true⟩, some ⟨0, true⟩, 1, 1⟩).1 =
      .error (.mcpError ⟨INTERNAL_ERROR, "Swift service error: Broken pipe"⟩) := by
  exact ⟨rfl, rfl, rfl⟩

/-- C8: the claim says the shutdown path closes the Connection before/while
stopping the WorkerProcess *and* that stopping proceeds to completion even if
closing fails.  `stop()` indeed closes the writer first, but the
`close()`/`wait_closed()` pair is not inside any `try`: when `wait_closed`
raises (e.g. `ConnectionResetError` because the worker died), the exception
propagates and the process-group signalling below it never runs — the state
still records worker pid 7. -/
theorem claim_C8_close_failure_skips_stop :
    SwiftService.stop (.raises "Connection reset by peer") .exits
        ⟨some 7, some ⟨0, false⟩, some ⟨0, false⟩, 8, 1⟩ =
      (.error (.osError "Connection reset by peer"),
        ⟨some 7, some ⟨0, false⟩, some ⟨0, true⟩, 8, 1⟩) := rfl

/-- C5: `get_occurrences` rejects any roles list containing an element outside
`{reference, definition}` with an INVALID_PARAMS `McpError` before any request
reaches the worker, and dispatches a fully valid list comma-joined and
otherwise unchanged. -/
theorem claim_C5_roles_validated_before_dispatch (usr : String) (roles : List String) :
    ((∃ r ∈ roles, r ∉ valid_roles) →
      ∃ msg, get_occurrences_request usr roles = .error ⟨INVALID_PARAMS, msg⟩) ∧
    ((∀ r ∈ roles, r ∈ valid_roles) →
      get_occurrences_request usr roles =
        .ok ("get_occurrences", [("usr", usr), ("roles", String.intercalate "," roles)])) := by
  constructor
  · rintro ⟨r, hr, hnot⟩
    have hne : ¬ (roles.filter (fun role => !valid_roles.contains role)).isEmpty = true := by
      simp only [List.isEmpty_iff, List.filter_eq_nil_iff]
      intro hall
      have := hall r hr
      simp at this
      exact hnot this
    refine ⟨"Invalid roles: " ++
      pyRepr (.list ((roles.filter (fun role => !valid_roles.contains role)).map PyVal.str)) ++
      ". Must be one of: " ++ pyRepr (.list (valid_roles.map PyVal.str)), ?_⟩
    unfold get_occurrences_request
    rw [if_pos (by simpa using hne)]
  · intro hall
    have hnil : (roles.filter (fun role => !valid_roles.contains role)) = [] := by
      rw [List.filter_eq_nil_iff]
      intro a ha
      simp [hall a ha]
    unfold get_occurrences_request
    rw [hnil]
    rfl

/-- Witness for C5 at concrete inputs: `["writer"]` is rejected with
INVALID_PARAMS before dispatch, `["reference", "definition"]` is dispatched
comma-joined. -/
theorem claim_C5_witness :
    (∃ msg, get_occurrences_request "s:myUSR" ["writer"] =
      .error ⟨INVALID_PARAMS, msg⟩) ∧
    get_occurrences_request "s:myUSR" ["reference", "definition"] =
      .ok ("get_occurrences",
        [("usr", "s:myUSR"), ("roles", "reference,definition")]) := by
  constructor
  · exact (claim_C5_roles_validated_before_dispatch "s:myUSR" ["writer"]).1
      ⟨"writer", by simp, by simp [valid_roles]⟩
  · exact (claim_C5_roles_validated_before_dispatch "s:myUSR" ["reference", "definition"]).2
      (by intro r hr; simpa [valid_roles] using hr)

/-- C6: `symbol_occurrences` rejects a non-integer or non-positive
`lineNumber` with INVALID_PARAMS before any request reaches the worker, and
dispatches a positive integer as its decimal string form. -/
theorem claim_C6_lineNumber_validated_before_dispatch (filePath : String) (lineNumber : PyVal) :
    ((isinstanceInt lineNumber = false ∨ pyIntValue lineNumber < 1) →
      symbol_occurrences_request filePath lineNumber =
        .error ⟨INVALID_PARAMS, "lineNumber must be a positive integer"⟩) ∧
    (∀ n : Int, 1 ≤ n → lineNumber = PyVal.int n →
      symbol_occurrences_request filePath lineNumber =
        .ok ("symbol_occurrences",
          [("filePath", filePath), ("lineNumber", toString n)])) := by
  constructor
  · intro h
    unfold symbol_occurrences_request
    rcases h with h | h
    · rw [if_pos (by simp [h])]
    · rw [if_pos (by simp [h])]
  · intro n hn he
    subst he
    unfold symbol_occurrences_request
    rw [if_neg (by simp [isinstanceInt, pyIntValue]; omega)]
    rfl

/-- Witness for C6 at concrete inputs: a string and zero are rejected, 45 is
dispatched as `"45"`. -/
theorem claim_C6_witness :
    symbol_occurrences_request "/p/a.swift" (PyVal.str "45") =
      .error ⟨INVALID_PARAMS, "lineNumber must be a positive integer"⟩ ∧
    symbol_occurrences_request "/p/a.swift" (PyVal.int 0) =
      .error ⟨INVALID_PARAMS, "lineNumber must be a positive integer"⟩ ∧
    symbol_occurrences_request "/p/a.swift" (PyVal.int 45) =
      .ok ("symbol_occurrences",
        [("filePath", "/p/a.swift"), ("lineNumber", "45")]) := by
  refine ⟨?_, ?_, ?_⟩
  · exact (claim_C6_lineNumber_validated_before_dispatch "/p/a.swift" (PyVal.str "45")).1
      (Or.inl rfl)
  · exact (claim_C6_lineNumber_validated_before_dispatch "/p/a.swift" (PyVal.int 0)).1
      (Or.inr (by simp [pyIntValue]))
  · exact (claim_C6_lineNumber_validated_before_dispatch "/p/a.swift" (PyVal.int 45)).2
      45 (by omega) rfl

/-- C7 counterexample: the claim says `stop()` with no worker running is a
no-op and does not raise — but with no worker and a stale writer whose
`wait_closed` raises, `stop()` propagates the exception (the close pair is not
guarded), so the claim as stated is false. -/
theorem claim_C7_counterexample :
    SwiftService.stop (.raises "Connection reset by peer") .exits
        ⟨Option.none, some ⟨0, false⟩, some ⟨0, false⟩, 1, 1⟩ =
      (.error (.osError "Connection reset by peer"),
        ⟨Option.none, some ⟨0, false⟩, some ⟨0, true⟩, 1, 1⟩) := rfl

/-- C7 as amended: with no worker *and no connection handle*, `stop()` is an
exact no-op and does not raise; and whenever the connection-close step cannot
raise (it succeeds, or there is no writer), `stop()` returns normally with the
worker-process state cleared on every signalling outcome — the worker exiting
on SIGTERM, `ProcessLookupError` treated as already-stopped, and the SIGKILL
fallback after a wait timeout (with or without `ProcessLookupError`). -/
theorem claim_C7_stop_idempotent_amended (s : ServiceState) (close : CloseOutcome)
    (kill : KillOutcome) :
    (s.swift_process = Option.none → s.writer = Option.none →
      SwiftService.stop close kill s = (.ok (), s)) ∧
    ((close = CloseOutcome.ok ∨ s.writer = Option.none) →
      (SwiftService.stop close kill s).1 = .ok () ∧
      (SwiftService.stop close kill s).2.swift_process = Option.none) := by
  obtain ⟨p, r, w, np, nc⟩ := s
  constructor
  · intro hp hw
    simp only at hp hw
    subst hp
    subst hw
    cases close <;> simp [SwiftService.stop, stopProcessPart]
  · intro hco
    rcases w with _ | w
    · cases p <;> cases close <;> cases kill <;>
        simp [SwiftService.stop, stopProcessPart]
    · have hok : close = CloseOutcome.ok := by
        rcases hco with hok | hw
        · exact hok
        · simp at hw
      subst hok
      cases p <;> cases kill <;> simp [SwiftService.stop, stopProcessPart]

/-- Witness for the amended C7: the idle state is untouched without raising,
and a running worker with a healthy close is cleared when the SIGTERM target
is already gone. -/
theorem claim_C7_witness :
    SwiftService.stop .ok .alreadyGone initialServiceState = (.ok (), initialServiceState) ∧
    (SwiftService.stop .ok .alreadyGone
        ⟨some 3, some ⟨0, false⟩, some ⟨0, false⟩, 4, 1⟩).1 = .ok () ∧
    (SwiftService.stop .ok .alreadyGone
        ⟨some 3, some ⟨0, false⟩, some ⟨0, false⟩, 4, 1⟩).2.swift_process = Option.none := by
  refine ⟨?_, ?_⟩
  · exact (claim_C7_stop_idempotent_amended initialServiceState .ok .alreadyGone).1 rfl rfl
  · exact (claim_C7_stop_idempotent_amended
      ⟨some 3, some ⟨0, false⟩, some ⟨0, false⟩, 4, 1⟩ .ok .alreadyGone).2 (Or.inl rfl)

/-- C9: a request built by the dispatcher — correlation id, method name, and a
string-keyed string-valued params dict (keys unique, as in any Python dict) —
framed by `json.dumps(request).encode() + b'\n'` and decoded back from that
line by `json.loads` yields exactly the original structure: the id, the method
and every parameter key and value, character for character, in order. -/
theorem claim_C9_request_roundtrip (r : PyRequest)
    (hnodup : (r.params.map Prod.fst).Nodup) :
    jsonLoads (encodeRequestLine r) = some (reqToJVal r) :=
  jsonLoads_dump_line (reqToJVal r)

/-- Witness for C9: a concrete `search_pattern` request (with an option string
exercising the escaping-free fast path) round-trips. -/
theorem claim_C9_witness :
    ((([("pattern", "myFunc"), ("options", "ignoreCase")] :
        List (String × String)).map Prod.fst).Nodup) ∧
    jsonLoads (encodeRequestLine
        ⟨"140274", "search_pattern", [("pattern", "myFunc"), ("options", "ignoreCase")]⟩) =
      some (reqToJVal
        ⟨"140274", "search_pattern", [("pattern", "myFunc"), ("options", "ignoreCase")]⟩) := by
  constructor
  · decide
  · exact claim_C9_request_roundtrip
      ⟨"140274", "search_pattern", [("pattern", "myFunc"), ("options", "ignoreCase")]⟩
      (by decide)

/-- C10: the two error entry points of lines 184-203 treat falsy values
asymmetrically.  A falsy top-level `error` (`if "error" in response and
response["error"]:`) is ignored — the call behaves exactly as if the field
were absent and proceeds to `result` — whereas the embedded check
(`if isinstance(result, dict) and "error" in result:`) tests only key
presence, so a result dict whose `error` key holds a falsy value (None, "")
still raises the INVALID_PARAMS error, carrying `str` of that falsy value. -/
theorem claim_C10_falsy_error_asymmetry (e : PyVal) (he : e.truthy = false)
    (r : PyVal) (kvs : List (String × PyVal))
    (hkey : (kvs.lookup "error").isSome = true) :
    handleDecodedResponse [("error", e), ("result", r)] =
      handleDecodedResponse [("result", r)] ∧
    handleDecodedResponse [("error", e), ("result", PyVal.dict kvs)] =
      .error ⟨INVALID_PARAMS, pyStr ((kvs.lookup "error").getD .none)⟩ := by
  constructor
  · simp [handleDecodedResponse, List.lookup, he]
  · simp [handleDecodedResponse, List.lookup, he, hkey]

/-- Witness for C10: with `error: None` at top level and a result dict whose
`error` key is `None`, the top-level entry point is skipped and the embedded
one raises INVALID_PARAMS carrying `str(None) = "None"`. -/
theorem claim_C10_witness :
    handleDecodedResponse [("error", PyVal.none), ("result", PyVal.str "ok")] =
      handleDecodedResponse [("result", PyVal.str "ok")] ∧
    handleDecodedResponse
        [("error", PyVal.none), ("result", PyVal.dict [("error", PyVal.none)])] =
      .error ⟨INVALID_PARAMS, "None"⟩ := by
  constructor
  · exact (claim_C10_falsy_error_asymmetry PyVal.none rfl (PyVal.str "ok")
      [("error", PyVal.none)] rfl).1
  · exact (claim_C10_falsy_error_asymmetry PyVal.none rfl (PyVal.str "ok")
      [("error", PyVal.none)] rfl).2
